import Mathlib

/-
Verification of the Simple Message Queue (SMQ) client library.

The development shallowly embeds the two core C modules:

* queue.c — a concurrent FIFO queue of Requests with a `running` flag,
  a `size` counter and a singly linked list from `head` to `tail`.
  The linked list is modelled as `items : List Request` listing the
  chain from head to tail; `head` is `items.head?` and `tail` is
  `items.getLast?`. Every branch of the C functions is mirrored
  exactly; in particular `queue_push` and `queue_pop` branch on the
  separate `size` field, not on the list, just as the C code does.
  Blocking and timeouts are abstracted: a `queue_pop` that would wait
  out its timeout and return NULL is modelled as returning `none`.

* client.c — the SMQ client. Threads are modelled by explicit state:
  the pusher loop body becomes a function of the queue state and the
  transport outcome, and thread joins are recorded by join counters so
  that "performs a join" is observable. `request_perform` (request.c)
  is an opaque parameter `perform : Request → Option String`, returning
  the response body on success and `none` on failure, exactly its C
  interface.
-/

namespace SMQ

/-- Request structure from request.c: three optional owned strings.
`request_create` copies whichever of method/url/body are non-NULL. -/
structure Request where
  method : Option String
  url : Option String
  body : Option String
deriving DecidableEq

/-- request_create from request.c: build a Request from optional
method, url and body. -/
def request_create (method url body : Option String) : Request :=
  { method := method, url := url, body := body }

/-- Queue structure from queue.h/queue.c: a running flag, a size
counter, and the linked list of Requests from head to tail, modelled
as a Lean list. The mutex and the two condition variables are
synchronisation devices with no sequential content and are omitted. -/
structure Queue where
  running : Bool
  size : Nat
  items : List Request
deriving DecidableEq

/-- The queue's head pointer: the first element of the chain, NULL
modelled as `none`. -/
def Queue.headPtr (q : Queue) : Option Request :=
  q.items.head?

/-- The queue's tail pointer: the last element of the chain, NULL
modelled as `none`. -/
def Queue.tailPtr (q : Queue) : Option Request :=
  q.items.getLast?

/-- queue_create from queue.c: a fresh empty running queue
(head = tail = NULL, size = 0, running = true). -/
def queue_create : Queue :=
  { running := true, size := 0, items := [] }

/-- queue_shutdown from queue.c: set running to false under the lock;
nothing else changes. -/
def queue_shutdown (q : Queue) : Queue :=
  { q with running := false }

/-- queue_push from queue.c. If the queue is not running, return
without touching the queue (the Request is not taken). Otherwise, if
size is 0 set head = tail = r, else append r after the current tail;
then increment size. The branch is on the `size` field, as in C. -/
def queue_push (q : Queue) (r : Request) : Queue :=
  if q.running = false then q
  else if q.size = 0 then { q with items := [r], size := q.size + 1 }
  else { q with items := q.items ++ [r], size := q.size + 1 }

/-- queue_pop from queue.c. If size is 0 the C code waits on the
produced condition until the timeout and returns NULL; this is
modelled as returning `none`. Otherwise detach the head: if size is 1
reset head = tail = NULL, else advance head to head->next; decrement
size. The `items = []` case with nonzero size is a NULL-head
dereference in C and cannot arise from a coherent queue; the model
returns `none` there. -/
def queue_pop (q : Queue) : Option Request × Queue :=
  if q.size = 0 then (none, q)
  else
    match q.items with
    | [] => (none, q)
    | r :: rest =>
      if q.size = 1 then (some r, { q with items := [], size := q.size - 1 })
      else (some r, { q with items := rest, size := q.size - 1 })

/-- Pop `n` times in sequence, collecting each result in order. -/
def queue_popN : Queue → Nat → List (Option Request) × Queue
  | q, 0 => ([], q)
  | q, n + 1 =>
    let p := queue_pop q
    let rest := queue_popN p.2 n
    (p.1 :: rest.1, rest.2)

/-- Push a whole list of Requests in order (one producer). -/
def queue_pushAll (q : Queue) (rs : List Request) : Queue :=
  rs.foldl queue_push q

/-- One operation of a push/pop/shutdown history against a queue. -/
inductive QOp where
  | push (r : Request)
  | pop
  | shutdown
deriving DecidableEq

/-- Running a history: the queue state, the number of pushes that were
accepted (performed while the queue was running), and the Requests
returned by successful pops, in order. -/
structure TraceResult where
  q : Queue
  accepted : Nat
  popped : List Request
deriving DecidableEq

/-- Apply one operation to a trace state, counting accepted pushes and
recording successfully popped Requests. -/
def run_op (t : TraceResult) : QOp → TraceResult
  | QOp.push r =>
    { t with
      q := queue_push t.q r
      accepted := if t.q.running then t.accepted + 1 else t.accepted }
  | QOp.pop =>
    match queue_pop t.q with
    | (none, q') => { t with q := q' }
    | (some r, q') => { t with q := q', popped := t.popped ++ [r] }
  | QOp.shutdown => { t with q := queue_shutdown t.q }

/-- Run a whole history of operations from a trace state. -/
def run_ops (t : TraceResult) (ops : List QOp) : TraceResult :=
  ops.foldl run_op t

/-- The trace state of a freshly created queue: no pushes accepted,
nothing popped. -/
def init_trace : TraceResult :=
  { q := queue_create, accepted := 0, popped := [] }

/-- The Requests a history pushes, in order. -/
def pushesOf (ops : List QOp) : List Request :=
  ops.filterMap fun op =>
    match op with
    | QOp.push r => some r
    | _ => none

/-- SMQ structure from client.h/client.c: name, server_url, timeout
(ms), running flag, the two queues, and — standing in for the two
pthread handles — counters of how many times each worker thread has
been joined, so that the join side effect of smq_shutdown is
observable in the model. -/
structure SMQState where
  name : String
  server_url : String
  timeout : Nat
  running : Bool
  outgoing : Queue
  incoming : Queue
  pusherJoins : Nat
  pullerJoins : Nat
deriving DecidableEq

/-- smq_create from client.c: server_url = host:port, timeout 2000 ms,
running true, two fresh queues, two worker threads spawned (join
counters 0). -/
def smq_create (name host port : String) : SMQState :=
  { name := name
    server_url := host ++ ":" ++ port
    timeout := 2000
    running := true
    outgoing := queue_create
    incoming := queue_create
    pusherJoins := 0
    pullerJoins := 0 }

/-- smq_running from client.c: read the running flag under the
client's mutex. -/
def smq_running (s : SMQState) : Bool :=
  s.running

/-- smq_publish from client.c. If the SMQ is not running, return at
once — before any Request is created. Otherwise create a PUT Request
to server_url/topic/{topic} with the given body and push it onto the
outgoing queue. The first component records the Request allocated by
the call (`none` when the early return fires and request_create is
never reached). -/
def smq_publish (s : SMQState) (topic body : String) : Option Request × SMQState :=
  if s.running = false then (none, s)
  else
    let r := request_create (some "PUT")
      (some (s.server_url ++ "/topic/" ++ topic)) (some body)
    (some r, { s with outgoing := queue_push s.outgoing r })

/-- smq_retrieve from client.c. If the SMQ is not running return NULL.
Otherwise pop from the incoming queue (with the client's timeout,
abstracted); on timeout return NULL, else take the popped Request's
body, destroy the wrapper Request, and return the body. -/
def smq_retrieve (s : SMQState) : Option String × SMQState :=
  if smq_running s = false then (none, s)
  else
    match queue_pop s.incoming with
    | (none, q') => (none, { s with incoming := q' })
    | (some r, q') => (r.body, { s with incoming := q' })

/-- smq_subscribe from client.c: unconditionally (no running check)
create a PUT Request to server_url/subscription/{name}/{topic} with no
body and push it onto the outgoing queue. The first component is the
Request the call constructs. -/
def smq_subscribe (s : SMQState) (topic : String) : Request × SMQState :=
  let r := request_create (some "PUT")
    (some (s.server_url ++ "/subscription/" ++ s.name ++ "/" ++ topic)) none
  (r, { s with outgoing := queue_push s.outgoing r })

/-- smq_unsubscribe from client.c: unconditionally (no running check)
create a DELETE Request to server_url/subscription/{name}/{topic} with
no body and push it onto the outgoing queue. The first component is
the Request the call constructs. -/
def smq_unsubscribe (s : SMQState) (topic : String) : Request × SMQState :=
  let r := request_create (some "DELETE")
    (some (s.server_url ++ "/subscription/" ++ s.name ++ "/" ++ topic)) none
  (r, { s with outgoing := queue_push s.outgoing r })

/-- smq_shutdown from client.c, on a possibly NULL client pointer. The
code checks only for NULL (its comment says "If the SMQ is not
running, return", but the test is on the pointer, not the flag); on a
non-NULL client it shuts down both queues, clears running, and joins
both worker threads. The second component counts the thread joins the
call performs (0 or 2); the join counters in the state record them. -/
def smq_shutdown (s : Option SMQState) : Option SMQState × Nat :=
  match s with
  | none => (none, 0)
  | some c =>
    (some { c with
      outgoing := queue_shutdown c.outgoing
      incoming := queue_shutdown c.incoming
      running := false
      pusherJoins := c.pusherJoins + 1
      pullerJoins := c.pullerJoins + 1 }, 2)

/-- One iteration of the smq_pusher loop body from client.c, run
against the outgoing queue. The worker pops one Request; `mid` is the
list of Requests other producers push between this worker's pop and
its requeue decision (the queue is shared). If the pop timed out the
iteration does nothing further. Otherwise the worker performs the
Request; on transport failure (`perform r = none`) it pushes the very
same Request back onto the queue, behind `mid`; on success it destroys
the Request and the response and does not requeue. -/
def smq_pusher_iter (q : Queue) (perform : Request → Option String)
    (mid : List Request) : Queue :=
  match queue_pop q with
  | (none, q') => queue_pushAll q' mid
  | (some r, q') =>
    let q2 := queue_pushAll q' mid
    match perform r with
    | none => queue_push q2 r
    | some _ => q2

/-- Example Request used in concrete instantiations of the theorems. -/
def reqA : Request :=
  { method := some "PUT", url := some "localhost:8080/topic/t", body := some "hello" }

/-- Example wrapped-body Request, as the puller would enqueue. -/
def reqB : Request :=
  { method := none, url := none, body := some "hi" }

/-- Example client as produced by smq_create. -/
def smqEx : SMQState := smq_create "alice" "localhost" "8080"

/-- Example client whose incoming queue holds one wrapped body. -/
def smqExIn : SMQState :=
  { smq_create "alice" "localhost" "8080" with
    incoming := { running := true, size := 1, items := [reqB] } }

/-- Example client whose outgoing queue has been shut down. -/
def smqExShut : SMQState :=
  { smq_create "alice" "localhost" "8080" with
    outgoing := { running := false, size := 0, items := [] } }

/-- The coherence invariant a trace state maintains: size matches the
chain length, and accepted pushes match size plus successful pops. -/
def trace_inv (t : TraceResult) : Prop :=
  t.q.size = t.q.items.length ∧ t.accepted = t.q.size + t.popped.length

/-- Helper: a push on a queue that is not running returns the queue
unchanged. -/
theorem queue_push_of_not_running {q : Queue} (r : Request)
    (h : q.running = false) : queue_push q r = q := by
  simp [queue_push, h]

/-- Helper: a push on a running, size-coherent queue appends the
Request at the tail and increments size. -/
theorem queue_push_of_running {q : Queue} (r : Request)
    (hrun : q.running = true) (hcoh : q.size = q.items.length) :
    queue_push q r = { q with items := q.items ++ [r], size := q.size + 1 } := by
  by_cases h0 : q.size = 0
  · have hnil : q.items = [] := by
      cases hi : q.items with
      | nil => rfl
      | cons a l => rw [hi] at hcoh; simp [h0] at hcoh
    simp [queue_push, hrun, h0, hnil]
  · simp [queue_push, hrun, h0]

/-- Helper: a pop on a size-coherent empty queue times out and leaves
the queue unchanged. -/
theorem queue_pop_of_empty {q : Queue} (hcoh : q.size = q.items.length)
    (h : q.items = []) : queue_pop q = (none, q) := by
  have h0 : q.size = 0 := by rw [hcoh, h]; rfl
  simp [queue_pop, h0]

/-- Helper: a pop on a size-coherent nonempty queue detaches the head
and decrements size, regardless of the running flag. -/
theorem queue_pop_of_cons {q : Queue} {r : Request} {rest : List Request}
    (hcoh : q.size = q.items.length) (h : q.items = r :: rest) :
    queue_pop q = (some r, { q with items := rest, size := q.size - 1 }) := by
  have hsz : q.size = rest.length + 1 := by rw [hcoh, h]; rfl
  cases rest with
  | nil => simp [queue_pop, h, hsz]
  | cons a l => simp [queue_pop, h, hsz]

/-- Helper: pushing a list onto a running, coherent queue appends it
whole at the tail. -/
theorem queue_pushAll_spec (rs : List Request) :
    ∀ q : Queue, q.running = true → q.size = q.items.length →
      (queue_pushAll q rs).running = true ∧
      (queue_pushAll q rs).size = q.size + rs.length ∧
      (queue_pushAll q rs).items = q.items ++ rs := by
  induction rs with
  | nil =>
    intro q h1 h2
    exact ⟨h1, by simp [queue_pushAll], by simp [queue_pushAll]⟩
  | cons r rs ih =>
    intro q h1 h2
    have hstep : queue_pushAll q (r :: rs) = queue_pushAll (queue_push q r) rs := rfl
    have hq := queue_push_of_running r h1 h2
    have hrun' : (queue_push q r).running = true := by rw [hq]; exact h1
    have hcoh' : (queue_push q r).size = (queue_push q r).items.length := by
      rw [hq]; simp [h2]
    obtain ⟨a, b, c⟩ := ih (queue_push q r) hrun' hcoh'
    refine ⟨by rw [hstep]; exact a, ?_, ?_⟩
    · rw [hstep, b, hq]; simp; omega
    · rw [hstep, c, hq]; simp

/-- Helper: popping exactly as many times as a coherent queue holds
drains it, returning the contents in order and ending empty. -/
theorem queue_popN_drain (l : List Request) : ∀ q : Queue,
    q.size = l.length → q.items = l →
    (queue_popN q l.length).1 = l.map some ∧
    (queue_popN q l.length).2 = { q with size := 0, items := [] } := by
  induction l with
  | nil =>
    intro q h1 h2
    refine ⟨rfl, ?_⟩
    show q = _
    rcases q with ⟨run, sz, its⟩
    simp only at h1 h2
    subst h1; subst h2
    rfl
  | cons r rest ih =>
    intro q h1 h2
    have hcoh : q.size = q.items.length := by rw [h1, h2]
    have hpop := queue_pop_of_cons hcoh h2
    have hsz' : ({ q with items := rest, size := q.size - 1 } : Queue).size
        = rest.length := by simp [h1]
    obtain ⟨ha, hb⟩ := ih { q with items := rest, size := q.size - 1 } hsz' rfl
    constructor
    · show (queue_popN q (rest.length + 1)).1 = _
      simp [queue_popN, hpop, ha]
    · show (queue_popN q (rest.length + 1)).2 = _
      simp [queue_popN, hpop, hb]

/-- C2: pushing onto a queue that has been shut down leaves the
queue's entire state — size, head, tail, contents — unchanged, and the
pushed Request is not taken into the queue (the caller retains it). -/
theorem queue_push_after_shutdown_noop (q : Queue) (r : Request)
    (h : q.running = false) :
    queue_push q r = q ∧
    (queue_push q r).size = q.size ∧
    (queue_push q r).headPtr = q.headPtr ∧
    (queue_push q r).tailPtr = q.tailPtr ∧
    (queue_push q r).items = q.items := by
  have he := queue_push_of_not_running r h
  exact ⟨he, by rw [he], by rw [he], by rw [he], by rw [he]⟩

/-- C2 witness: push onto a concrete shut-down queue holding one
Request changes nothing. -/
theorem queue_push_after_shutdown_noop_witness :
    (({ running := false, size := 1, items := [reqB] } : Queue).running = false) ∧
    queue_push { running := false, size := 1, items := [reqB] } reqA
      = { running := false, size := 1, items := [reqB] } :=
  ⟨rfl, (queue_push_after_shutdown_noop
    { running := false, size := 1, items := [reqB] } reqA rfl).1⟩

/-- C3: a shut-down coherent queue still drains: the next |items| pops
return exactly the held Requests in order, and the pop after that
returns the empty sentinel. -/
theorem queue_pop_drains_after_shutdown (q : Queue)
    (hrun : q.running = false) (hcoh : q.size = q.items.length) :
    (queue_popN q q.items.length).1 = q.items.map some ∧
    (queue_pop (queue_popN q q.items.length).2).1 = none := by
  obtain ⟨ha, hb⟩ := queue_popN_drain q.items q hcoh rfl
  refine ⟨ha, ?_⟩
  rw [hb]
  simp [queue_pop]

/-- C3 witness: a concrete shut-down queue holding two Requests yields
them both, in order, then the empty sentinel. -/
theorem queue_pop_drains_after_shutdown_witness :
    (({ running := false, size := 2, items := [reqA, reqB] } : Queue).running = false) ∧
    (({ running := false, size := 2, items := [reqA, reqB] } : Queue).size
      = ({ running := false, size := 2, items := [reqA, reqB] } : Queue).items.length) ∧
    ((queue_popN { running := false, size := 2, items := [reqA, reqB] }
        ({ running := false, size := 2, items := [reqA, reqB] } : Queue).items.length).1
      = ({ running := false, size := 2, items := [reqA, reqB] } : Queue).items.map some ∧
     (queue_pop (queue_popN { running := false, size := 2, items := [reqA, reqB] }
        ({ running := false, size := 2, items := [reqA, reqB] } : Queue).items.length).2).1
      = none) :=
  ⟨rfl, rfl, queue_pop_drains_after_shutdown
    { running := false, size := 2, items := [reqA, reqB] } rfl rfl⟩

/-- Helper: a pop contributes no push to the history's push list. -/
theorem pushesOf_pop (ops : List QOp) :
    pushesOf (QOp.pop :: ops) = pushesOf ops := rfl

/-- Helper: a push contributes its Request to the history's push list. -/
theorem pushesOf_push (r : Request) (ops : List QOp) :
    pushesOf (QOp.push r :: ops) = r :: pushesOf ops := rfl

/-- Helper: one operation preserves the trace invariant. -/
theorem run_op_inv {t : TraceResult} (op : QOp) (h : trace_inv t) :
    trace_inv (run_op t op) := by
  obtain ⟨hcoh, hacc⟩ := h
  cases op with
  | push r =>
    by_cases hrun : t.q.running = true
    · have hq := queue_push_of_running r hrun hcoh
      constructor
      · show (queue_push t.q r).size = (queue_push t.q r).items.length
        rw [hq]; simp [hcoh]
      · show (if t.q.running then t.accepted + 1 else t.accepted)
          = (queue_push t.q r).size + t.popped.length
        rw [hq]; simp [hrun, hacc]; omega
    · have hrun' : t.q.running = false := by
        revert hrun; cases t.q.running <;> simp
      have hq := queue_push_of_not_running r hrun'
      constructor
      · show (queue_push t.q r).size = (queue_push t.q r).items.length
        rw [hq]; exact hcoh
      · show (if t.q.running then t.accepted + 1 else t.accepted)
          = (queue_push t.q r).size + t.popped.length
        rw [hq]; simp [hrun', hacc]
  | pop =>
    cases hi : t.q.items with
    | nil =>
      have hpop := queue_pop_of_empty hcoh hi
      have he : run_op t QOp.pop = t := by simp [run_op, hpop]
      rw [he]; exact ⟨hcoh, hacc⟩
    | cons r rest =>
      have hpop := queue_pop_of_cons hcoh hi
      have hsz : t.q.size = rest.length + 1 := by rw [hcoh, hi]; rfl
      constructor
      · show (run_op t QOp.pop).q.size = (run_op t QOp.pop).q.items.length
        simp [run_op, hpop, hsz]
      · show (run_op t QOp.pop).accepted
          = (run_op t QOp.pop).q.size + (run_op t QOp.pop).popped.length
        simp [run_op, hpop, hsz, hacc]
        omega
  | shutdown => exact ⟨hcoh, hacc⟩

/-- Helper: a whole history preserves the trace invariant. -/
theorem run_ops_inv (ops : List QOp) :
    ∀ t : TraceResult, trace_inv t → trace_inv (run_ops t ops) := by
  induction ops with
  | nil => intro t h; exact h
  | cons op ops ih => intro t h; exact ih (run_op t op) (run_op_inv op h)

/-- Helper: on a running queue with no shutdown in the history, the
popped Requests followed by the residual contents are exactly the prior
contents followed by the pushes, in order. -/
theorem run_ops_fifo_inv (ops : List QOp) :
    ∀ t : TraceResult, QOp.shutdown ∉ ops →
    t.q.running = true → t.q.size = t.q.items.length →
    (run_ops t ops).q.running = true ∧
    (run_ops t ops).q.size = (run_ops t ops).q.items.length ∧
    (run_ops t ops).popped ++ (run_ops t ops).q.items
      = t.popped ++ (t.q.items ++ pushesOf ops) := by
  induction ops with
  | nil =>
    intro t hno hrun hcoh
    exact ⟨hrun, hcoh, by simp [run_ops, pushesOf]⟩
  | cons op ops ih =>
    intro t hno hrun hcoh
    have hstep : run_ops t (op :: ops) = run_ops (run_op t op) ops := rfl
    have hno' : QOp.shutdown ∉ ops := fun hc => hno (List.mem_cons_of_mem _ hc)
    cases op with
    | push r =>
      have hq := queue_push_of_running r hrun hcoh
      have hrun' : (run_op t (QOp.push r)).q.running = true := by
        show (queue_push t.q r).running = true
        rw [hq]; exact hrun
      have hcoh' : (run_op t (QOp.push r)).q.size
          = (run_op t (QOp.push r)).q.items.length := by
        show (queue_push t.q r).size = (queue_push t.q r).items.length
        rw [hq]; simp [hcoh]
      obtain ⟨a, b, c⟩ := ih (run_op t (QOp.push r)) hno' hrun' hcoh'
      rw [hstep]
      refine ⟨a, b, ?_⟩
      rw [c]
      show t.popped ++ ((queue_push t.q r).items ++ pushesOf ops) = _
      rw [hq]
      simp [pushesOf]
    | pop =>
      cases hi : t.q.items with
      | nil =>
        have hpop := queue_pop_of_empty hcoh hi
        have he : run_op t QOp.pop = t := by simp [run_op, hpop]
        rw [hstep, he]
        obtain ⟨a, b, c⟩ := ih t hno' hrun hcoh
        exact ⟨a, b, by rw [c, pushesOf_pop, hi]⟩
      | cons r rest =>
        have hpop := queue_pop_of_cons hcoh hi
        have hsz : t.q.size = rest.length + 1 := by rw [hcoh, hi]; rfl
        have hq : (run_op t QOp.pop).q
            = { t.q with items := rest, size := t.q.size - 1 } := by
          simp [run_op, hpop]
        have hp : (run_op t QOp.pop).popped = t.popped ++ [r] := by
          simp [run_op, hpop]
        have hrun' : (run_op t QOp.pop).q.running = true := by rw [hq]; exact hrun
        have hcoh' : (run_op t QOp.pop).q.size
            = (run_op t QOp.pop).q.items.length := by rw [hq]; simp [hsz]
        obtain ⟨a, b, c⟩ := ih (run_op t QOp.pop) hno' hrun' hcoh'
        rw [hstep]
        refine ⟨a, b, ?_⟩
        rw [c, hp, hq, pushesOf_pop]
        simp [hi]
    | shutdown => exact absurd (List.mem_cons_self _ _) hno

/-- C4: FIFO for a single producer and single consumer: for any
history of pushes and pops (no shutdown) on a fresh running queue in
which the Requests R1…Rn are pushed in that order, the successfully
popped Requests followed by the residue equal R1…Rn; in particular a
consumer that drains the queue observes exactly R1…Rn in order. -/
theorem queue_fifo_single_producer_single_consumer (ops : List QOp)
    (rs : List Request) (hno : QOp.shutdown ∉ ops) (hps : pushesOf ops = rs) :
    (run_ops init_trace ops).popped ++ (run_ops init_trace ops).q.items = rs ∧
    ((run_ops init_trace ops).q.items = [] →
      (run_ops init_trace ops).popped = rs) := by
  obtain ⟨-, -, c⟩ := run_ops_fifo_inv ops init_trace hno rfl rfl
  subst hps
  have hc : (run_ops init_trace ops).popped ++ (run_ops init_trace ops).q.items
      = pushesOf ops := by
    rw [c]; simp [init_trace, queue_create]
  exact ⟨hc, fun h => by rw [h] at hc; simpa using hc⟩

/-- C4 witness: pushing two concrete Requests then popping twice
observes them in push order. -/
theorem queue_fifo_single_producer_single_consumer_witness :
    QOp.shutdown ∉ [QOp.push reqA, QOp.push reqB, QOp.pop, QOp.pop] ∧
    pushesOf [QOp.push reqA, QOp.push reqB, QOp.pop, QOp.pop] = [reqA, reqB] ∧
    ((run_ops init_trace [QOp.push reqA, QOp.push reqB, QOp.pop, QOp.pop]).popped
        ++ (run_ops init_trace [QOp.push reqA, QOp.push reqB, QOp.pop, QOp.pop]).q.items
      = [reqA, reqB] ∧
     ((run_ops init_trace [QOp.push reqA, QOp.push reqB, QOp.pop, QOp.pop]).q.items = [] →
      (run_ops init_trace [QOp.push reqA, QOp.push reqB, QOp.pop, QOp.pop]).popped
        = [reqA, reqB])) :=
  ⟨by decide, rfl,
    queue_fifo_single_producer_single_consumer
      [QOp.push reqA, QOp.push reqB, QOp.pop, QOp.pop] [reqA, reqB] (by decide) rfl⟩

/-- C5: size coherence: after any history of pushes, pops and
shutdowns on a fresh queue, accepted pushes equal size plus successful
pops — equivalently size is accepted minus popped — and size equals
the number of Requests reachable from head. -/
theorem queue_size_coherence (ops : List QOp) :
    (run_ops init_trace ops).accepted
      = (run_ops init_trace ops).q.size + (run_ops init_trace ops).popped.length ∧
    (run_ops init_trace ops).q.size
      = (run_ops init_trace ops).accepted - (run_ops init_trace ops).popped.length ∧
    (run_ops init_trace ops).q.size = (run_ops init_trace ops).q.items.length := by
  obtain ⟨h1, h2⟩ := run_ops_inv ops init_trace ⟨rfl, rfl⟩
  exact ⟨h2, by omega, h1⟩

/-- C9: emptiness invariant: every queue reachable from queue_create
by pushes, pops and shutdowns has size 0 exactly when both head and
tail are null; and popping the last Request of a coherent queue
returns it and resets head and tail to null. -/
theorem queue_emptiness_invariant :
    (∀ ops : List QOp,
      ((run_ops init_trace ops).q.size = 0 ↔
        (run_ops init_trace ops).q.headPtr = none ∧
          (run_ops init_trace ops).q.tailPtr = none)) ∧
    (∀ (q : Queue) (r : Request), q.size = q.items.length → q.items = [r] →
      (queue_pop q).1 = some r ∧ (queue_pop q).2.size = 0 ∧
      (queue_pop q).2.headPtr = none ∧ (queue_pop q).2.tailPtr = none) := by
  constructor
  · intro ops
    have h := (run_ops_inv ops init_trace ⟨rfl, rfl⟩).1
    cases hi : (run_ops init_trace ops).q.items with
    | nil =>
      rw [hi] at h
      simp [Queue.headPtr, Queue.tailPtr, hi, h]
    | cons a l =>
      rw [hi] at h
      simp [Queue.headPtr, Queue.tailPtr, hi, h]
  · intro q r hcoh hi
    have hpop := queue_pop_of_cons hcoh hi
    have hsz : q.size = 1 := by rw [hcoh, hi]; rfl
    simp [hpop, Queue.headPtr, Queue.tailPtr, hsz]

/-- C9 witness: the invariant at a concrete reachable queue, and
popping a concrete one-element queue clears head and tail. -/
theorem queue_emptiness_invariant_witness :
    (((run_ops init_trace [QOp.push reqA]).q.size = 0 ↔
      (run_ops init_trace [QOp.push reqA]).q.headPtr = none ∧
        (run_ops init_trace [QOp.push reqA]).q.tailPtr = none)) ∧
    (({ running := true, size := 1, items := [reqB] } : Queue).size
      = ({ running := true, size := 1, items := [reqB] } : Queue).items.length) ∧
    ((queue_pop { running := true, size := 1, items := [reqB] }).1 = some reqB ∧
     (queue_pop { running := true, size := 1, items := [reqB] }).2.size = 0 ∧
     (queue_pop { running := true, size := 1, items := [reqB] }).2.headPtr = none ∧
     (queue_pop { running := true, size := 1, items := [reqB] }).2.tailPtr = none) :=
  ⟨queue_emptiness_invariant.1 [QOp.push reqA], rfl,
    queue_emptiness_invariant.2 { running := true, size := 1, items := [reqB] } reqB rfl rfl⟩

/-- C1: the claim that smq_shutdown is idempotent fails on the code:
smq_shutdown checks only the pointer for NULL (although its comment
says "If the SMQ is not running, return"), so a second call on a live
client performs two further thread joins and changes the state again,
instead of being a no-op. Evaluated here at a concrete client created
by smq_create. -/
theorem smq_shutdown_second_call_not_noop :
    (smq_shutdown (smq_shutdown (some (smq_create "alice" "localhost" "8080"))).1).2 = 2 ∧
    (smq_shutdown (smq_shutdown (some (smq_create "alice" "localhost" "8080"))).1).1
      ≠ (smq_shutdown (some (smq_create "alice" "localhost" "8080"))).1 := by
  constructor
  · rfl
  · intro hcontra
    have hjoins := congrArg
      (fun o => match o with
        | some c => c.pusherJoins
        | none => 0) hcontra
    simp [smq_shutdown, smq_create] at hjoins

/-- C6: smq_retrieve returns the empty sentinel on a stopped client;
on a running client it pops the incoming queue, returning the popped
Request's body (the wrapper is destroyed) when one is present and the
empty sentinel on timeout, touching nothing else. -/
theorem smq_retrieve_spec (s : SMQState) :
    (s.running = false → smq_retrieve s = (none, s)) ∧
    (s.running = true → s.incoming.size = s.incoming.items.length →
      (s.incoming.items = [] → smq_retrieve s = (none, s)) ∧
      (∀ r rest, s.incoming.items = r :: rest →
        (smq_retrieve s).1 = r.body ∧
        (smq_retrieve s).2.incoming.items = rest ∧
        (smq_retrieve s).2.incoming.size = s.incoming.size - 1 ∧
        (smq_retrieve s).2.outgoing = s.outgoing ∧
        (smq_retrieve s).2.running = s.running)) := by
  refine ⟨fun h => ?_, fun hrun hcoh => ⟨fun hnil => ?_, fun r rest hcons => ?_⟩⟩
  · simp [smq_retrieve, smq_running, h]
  · have hpop := queue_pop_of_empty hcoh hnil
    simp [smq_retrieve, smq_running, hrun, hpop]
    rw [← hrun]
  · have hpop := queue_pop_of_cons hcoh hcons
    simp [smq_retrieve, smq_running, hrun, hpop]

/-- C6 witness: retrieving from a concrete running client holding one
wrapped body yields that body and empties the incoming queue. -/
theorem smq_retrieve_spec_witness :
    smqExIn.running = true ∧
    smqExIn.incoming.size = smqExIn.incoming.items.length ∧
    smqExIn.incoming.items = reqB :: [] ∧
    ((smq_retrieve smqExIn).1 = reqB.body ∧
     (smq_retrieve smqExIn).2.incoming.items = [] ∧
     (smq_retrieve smqExIn).2.incoming.size = smqExIn.incoming.size - 1 ∧
     (smq_retrieve smqExIn).2.outgoing = smqExIn.outgoing ∧
     (smq_retrieve smqExIn).2.running = smqExIn.running) :=
  ⟨rfl, rfl, rfl, ((smq_retrieve_spec smqExIn).2 rfl rfl).2 reqB [] rfl⟩

/-- C7: smq_publish is a no-op on a stopped client (it returns before
any Request is created); on a running client it constructs the PUT
Request for server_url/topic/{topic} with the given body and pushes it
onto the outgoing queue, which appends it at the tail when the queue
accepts it. -/
theorem smq_publish_spec (s : SMQState) (topic body : String) :
    (s.running = false → smq_publish s topic body = (none, s)) ∧
    (s.running = true →
      smq_publish s topic body
        = (some (request_create (some "PUT")
            (some (s.server_url ++ "/topic/" ++ topic)) (some body)),
           { s with outgoing := (queue_push s.outgoing
             (request_create (some "PUT")
               (some (s.server_url ++ "/topic/" ++ topic)) (some body))) })) ∧
    (s.running = true → s.outgoing.running = true →
      s.outgoing.size = s.outgoing.items.length →
      (smq_publish s topic body).2.outgoing.items
        = s.outgoing.items ++ [request_create (some "PUT")
            (some (s.server_url ++ "/topic/" ++ topic)) (some body)] ∧
      (smq_publish s topic body).2.outgoing.size = s.outgoing.size + 1 ∧
      (smq_publish s topic body).2.incoming = s.incoming ∧
      (smq_publish s topic body).2.running = s.running) := by
  refine ⟨fun h => by simp [smq_publish, h],
    fun hrun => by simp [smq_publish, hrun],
    fun hrun hqrun hcoh => ?_⟩
  have hq := queue_push_of_running (request_create (some "PUT")
    (some (s.server_url ++ "/topic/" ++ topic)) (some body)) hqrun hcoh
  refine ⟨?_, ?_, ?_, ?_⟩ <;> simp [smq_publish, hrun, hq]

/-- C7 witness: publishing on a concrete fresh client appends the PUT
Request to the outgoing queue. -/
theorem smq_publish_spec_witness :
    smqEx.running = true ∧ smqEx.outgoing.running = true ∧
    smqEx.outgoing.size = smqEx.outgoing.items.length ∧
    ((smq_publish smqEx "t" "hello").2.outgoing.items
       = smqEx.outgoing.items ++ [request_create (some "PUT")
           (some (smqEx.server_url ++ "/topic/" ++ "t")) (some "hello")] ∧
     (smq_publish smqEx "t" "hello").2.outgoing.size = smqEx.outgoing.size + 1 ∧
     (smq_publish smqEx "t" "hello").2.incoming = smqEx.incoming ∧
     (smq_publish smqEx "t" "hello").2.running = smqEx.running) :=
  ⟨rfl, rfl, rfl, (smq_publish_spec smqEx "t" "hello").2.2 rfl rfl rfl⟩

/-- C8: in a pusher iteration that pops a Request, on transport
failure the very same Request is pushed back at the tail of the
outgoing queue, behind the Requests other producers enqueued in
between (and this holds at every failing iteration — there is no retry
cap); on transport success it is destroyed and not requeued. -/
theorem smq_pusher_retry_requeues_same_request (q : Queue)
    (perform : Request → Option String) (mid : List Request)
    (r : Request) (rest : List Request)
    (hrun : q.running = true) (hcoh : q.size = q.items.length)
    (hitems : q.items = r :: rest) :
    (perform r = none →
      (smq_pusher_iter q perform mid).items = (rest ++ mid) ++ [r]) ∧
    (∀ resp, perform r = some resp →
      (smq_pusher_iter q perform mid).items = rest ++ mid) := by
  have hpop := queue_pop_of_cons hcoh hitems
  have hsz : q.size = rest.length + 1 := by rw [hcoh, hitems]; rfl
  have hrun' : ({ q with items := rest, size := q.size - 1 } : Queue).running = true := hrun
  have hcoh' : ({ q with items := rest, size := q.size - 1 } : Queue).size
      = ({ q with items := rest, size := q.size - 1 } : Queue).items.length := by
    simp [hsz]
  obtain ⟨pa, pb, pc⟩ :=
    queue_pushAll_spec mid { q with items := rest, size := q.size - 1 } hrun' hcoh'
  have hcohAll : (queue_pushAll { q with items := rest, size := q.size - 1 } mid).size
      = (queue_pushAll { q with items := rest, size := q.size - 1 } mid).items.length := by
    rw [pb, pc]; simp [hsz]
  constructor
  · intro hfail
    have he : smq_pusher_iter q perform mid
        = queue_push (queue_pushAll { q with items := rest, size := q.size - 1 } mid) r := by
      simp [smq_pusher_iter, hpop, hfail]
    rw [he, queue_push_of_running r pa hcohAll]
    simp [pc]
  · intro resp hsucc
    have he : smq_pusher_iter q perform mid
        = queue_pushAll { q with items := rest, size := q.size - 1 } mid := by
      simp [smq_pusher_iter, hpop, hsucc]
    rw [he, pc]

/-- C8 witness: with a transport that fails, a concrete pusher
iteration requeues the popped Request behind a newly enqueued one. -/
theorem smq_pusher_retry_requeues_same_request_witness :
    (({ running := true, size := 1, items := [reqA] } : Queue).running = true) ∧
    (({ running := true, size := 1, items := [reqA] } : Queue).size
      = ({ running := true, size := 1, items := [reqA] } : Queue).items.length) ∧
    (({ running := true, size := 1, items := [reqA] } : Queue).items = reqA :: []) ∧
    ((fun _ : Request => (none : Option String)) reqA = none) ∧
    (smq_pusher_iter { running := true, size := 1, items := [reqA] }
        (fun _ => none) [reqB]).items = ([] ++ [reqB]) ++ [reqA] :=
  ⟨rfl, rfl, rfl, rfl,
    (smq_pusher_retry_requeues_same_request
      { running := true, size := 1, items := [reqA] }
      (fun _ => none) [reqB] reqA [] rfl rfl rfl).1 rfl⟩

/-- C10: smq_subscribe and smq_unsubscribe perform no running check:
on a client whose outgoing queue has been shut down they still
construct their Request (PUT respectively DELETE to
server_url/subscription/{name}/{topic}) and attempt the push, but the
push is rejected and the client's state — the outgoing queue included
— is left unchanged. -/
theorem smq_subscribe_unsubscribe_after_shutdown (s : SMQState) (topic : String)
    (h : s.outgoing.running = false) :
    (smq_subscribe s topic).1
      = request_create (some "PUT")
          (some (s.server_url ++ "/subscription/" ++ s.name ++ "/" ++ topic)) none ∧
    (smq_subscribe s topic).2 = s ∧
    (smq_unsubscribe s topic).1
      = request_create (some "DELETE")
          (some (s.server_url ++ "/subscription/" ++ s.name ++ "/" ++ topic)) none ∧
    (smq_unsubscribe s topic).2 = s := by
  have h1 := queue_push_of_not_running (q := s.outgoing)
    (request_create (some "PUT")
      (some (s.server_url ++ "/subscription/" ++ s.name ++ "/" ++ topic)) none) h
  have h2 := queue_push_of_not_running (q := s.outgoing)
    (request_create (some "DELETE")
      (some (s.server_url ++ "/subscription/" ++ s.name ++ "/" ++ topic)) none) h
  refine ⟨rfl, ?_, rfl, ?_⟩
  · show { s with outgoing := queue_push s.outgoing _ } = s
    rw [h1]
  · show { s with outgoing := queue_push s.outgoing _ } = s
    rw [h2]

/-- C10 witness: subscribe and unsubscribe on a concrete shut-down
client construct their Requests yet change nothing. -/
theorem smq_subscribe_unsubscribe_after_shutdown_witness :
    smqExShut.outgoing.running = false ∧
    ((smq_subscribe smqExShut "chat").1
       = request_create (some "PUT")
           (some (smqExShut.server_url ++ "/subscription/"
             ++ smqExShut.name ++ "/" ++ "chat")) none ∧
     (smq_subscribe smqExShut "chat").2 = smqExShut ∧
     (smq_unsubscribe smqExShut "chat").1
       = request_create (some "DELETE")
           (some (smqExShut.server_url ++ "/subscription/"
             ++ smqExShut.name ++ "/" ++ "chat")) none ∧
     (smq_unsubscribe smqExShut "chat").2 = smqExShut) :=
  ⟨rfl, smq_subscribe_unsubscribe_after_shutdown smqExShut "chat" rfl⟩

end SMQ
